import Mathlib

-- Verification development for a Go program that reads SQLite database
-- files.  The Go source is shallowly embedded: byte streams become `List Nat`
-- (each element a byte value 0..255, masked with `&&& 0xff` where the Go
-- `byte` type guarantees the range), machine integers become `Nat`/`Int`
-- with explicit `% 2 ^ 64` where Go would wrap, and fallible functions
-- return `Except Err`.

set_option linter.unusedVariables false

/-- Result of `ReadVarint(stream io.ByteReader) (uint64, int, error)` in
internal/db/varint.go, together with the unread remainder of the stream.
`err = true` models a non-nil error from the final `ReadByte` call (the only
error the byte sources in this program produce is end of input, for which
`bufio.Reader.ReadByte` yields the byte 0 alongside the error). -/
structure VarintResult where
  value : Nat
  read : Nat
  rest : List Nat
  err : Bool
deriving Repr, DecidableEq

/-- The loop body of `ReadVarint`: Go runs `for range 9`, so `fuel` starts
at 9.  Each iteration shifts the accumulator left by 7, reads a byte
(a failed read yields byte 0 and sets the error), ORs in its low 7 bits, and
stops when the continuation bit (0x80) is clear.  The accumulator never
exceeds 2 ^ 63, so plain `Nat` arithmetic is exact for the Go `uint64`. -/
def readVarintAux : Nat → Nat → Nat → List Nat → VarintResult
  | 0, acc, read, s => ⟨acc, read, s, false⟩
  | _ + 1, acc, read, [] => ⟨acc <<< 7, read + 1, [], true⟩
  | fuel + 1, acc, read, b :: rest =>
    let acc := (acc <<< 7) ||| (b &&& 0x7f)
    if b &&& 0x80 = 0 then ⟨acc, read + 1, rest, false⟩
    else readVarintAux fuel acc (read + 1) rest

/-- `ReadVarint` from internal/db/varint.go. -/
def ReadVarint (s : List Nat) : VarintResult :=
  readVarintAux 9 0 0 s

/-- One accumulation step of the varint loop: shift by 7, OR the low 7 bits. -/
def varintStep (a b : Nat) : Nat :=
  (a <<< 7) ||| (b &&& 0x7f)

/-- The distinct error sites of the Go program (which returns wrapped
`fmt.Errorf` strings); one constructor per site, carrying the data the Go
message interpolates where a claim depends on it. -/
inductive Err where
  | nilHeader
  | invalidPageNumber
  | pageSizeTooSmall (size : Nat)
  | ioRead (page : Nat)
  | noData (page : Nat)
  | contentOffsetBeyondData (page : Nat)
  | unknownPageType (page : Nat) (typeFlag : Nat)
  | truncatedHeader (page : Nat)
  | truncatedPointers (page : Nat)
  | cellIndexOutOfRange (i : Int)
  | missingCellAddress (i : Int)
  | cellOffsetExceedsPage (offset : Nat)
  | readRecordSize (i : Int)
  | readRowID (i : Int)
  | readHeaderSize (i : Int)
  | negativeHeaderSize (i : Int)
  | reservedSerialType (t : Nat)
  | unsupportedSerialType (t : Nat)
  | payloadLengthMismatch (t expected got : Nat)
  | readPayload (t : Nat)
  | pageNumbersStartAtOne
  | openFile
  | headerRead
  | schemaColumnMissing
  | tblNameNotText
  | metadataTypeMismatch
  | tableNotFound
  | unknownSchemaColumn
  | indexPanic
deriving Repr, DecidableEq

/-- The dynamic value a Go `any` holds after column decoding, plus the
`uint32` case because `MetadataLookup[uint32]` type-asserts to that type.
Go strings are kept as their UTF-8 bytes, so string equality is byte
equality; a float64 is kept as its IEEE-754 bit pattern
(`math.Float64frombits` reinterprets, it does not compute). -/
inductive GoValue where
  | nil
  | int64 (v : Int)
  | uint32 (v : Nat)
  | float64 (bits : Nat)
  | str (bytes : List Nat)
  | blob (bytes : List Nat)
deriving Repr, DecidableEq

/-- `Column` from internal/db/row.go. -/
structure Column where
  serialType : Nat
  decodedValue : GoValue
deriving Repr, DecidableEq

/-- `Row` from internal/db/row.go. -/
structure Row where
  recordSize : Nat
  rowID : Nat
  recordHeaderSize : Nat
  columns : List Column
deriving Repr, DecidableEq

/-- `columnRawValueLength` from internal/db/row.go: the payload byte length
implied by a record serial type. -/
def columnRawValueLength (serialType : Nat) : Except Err Nat :=
  if serialType = 0 ∨ serialType = 8 ∨ serialType = 9 then .ok 0
  else if serialType = 1 then .ok 1
  else if serialType = 2 then .ok 2
  else if serialType = 3 then .ok 3
  else if serialType = 4 then .ok 4
  else if serialType = 5 then .ok 6
  else if serialType = 6 ∨ serialType = 7 then .ok 8
  else if serialType = 10 ∨ serialType = 11 then .error (.reservedSerialType serialType)
  else if 12 ≤ serialType then
    if serialType % 2 = 0 then .ok ((serialType - 12) / 2)
    else .ok ((serialType - 13) / 2)
  else .error (.unsupportedSerialType serialType)

/-- `decodeSignedInteger` from internal/db/row.go.  The Go loop
`value = (value << 8) | int64(b)` accumulates the big-endian bytes into an
int64 bit pattern (64-bit wrap-around), then computes
`int64(uint64(value << shift) >> shift)` with `shift = (8 - len(raw)) * 8`:
a left shift followed by a LOGICAL right shift on `uint64`, which clears the
top `shift` bits.  The final `int64` conversion reinterprets the 64-bit
pattern as two's complement.  All callers pass `len(raw) ≤ 8` (Go would
panic on a negative shift otherwise). -/
def decodeSignedInteger (raw : List Nat) : Int :=
  let bits := raw.foldl (fun v b => ((v <<< 8) % 2 ^ 64) ||| (b &&& 0xff)) 0
  let shift := (8 - raw.length) * 8
  let shifted := ((bits <<< shift) % 2 ^ 64) >>> shift
  if shifted < 2 ^ 63 then (shifted : Int) else (shifted : Int) - 2 ^ 64

/-- `binary.BigEndian.Uint64`: the first 8 bytes, big-endian (the only call
site passes exactly 8 bytes). -/
def beUint64 (raw : List Nat) : Nat :=
  (raw.take 8).foldl (fun a b => (a <<< 8) ||| (b &&& 0xff)) 0

/-- `decodeColumnValue` from internal/db/row.go. -/
def decodeColumnValue (serialType : Nat) (raw : List Nat) : Except Err GoValue :=
  match columnRawValueLength serialType with
  | .error e => .error e
  | .ok expectedLen =>
    if expectedLen ≠ raw.length then
      .error (.payloadLengthMismatch serialType expectedLen raw.length)
    else if serialType = 0 then .ok .nil
    else if serialType = 1 ∨ serialType = 2 ∨ serialType = 3 ∨ serialType = 4
        ∨ serialType = 5 ∨ serialType = 6 then .ok (.int64 (decodeSignedInteger raw))
    else if serialType = 7 then .ok (.float64 (beUint64 raw))
    else if serialType = 8 then .ok (.int64 0)
    else if serialType = 9 then .ok (.int64 1)
    else if 12 ≤ serialType then
      if serialType % 2 = 0 then .ok (.blob raw) else .ok (.str raw)
    else .error (.unsupportedSerialType serialType)

/-- Modelled from the spec, for comparison with `decodeSignedInteger`: the
big-endian two's-complement integer of byte width `w = raw.length`,
sign-extended to 64 bits — equivalently, shift the accumulated bytes left by
`(8 - w) * 8` bits and ARITHMETIC-shift-right by the same amount.  For
`w ≥ 1` this interprets the top bit of the first byte as the sign. -/
def specDecodeSignedInteger (raw : List Nat) : Int :=
  let w := raw.length
  let bits := (raw.foldl (fun a b => (a <<< 8) ||| (b &&& 0xff)) 0) % 2 ^ (8 * w)
  if bits < 2 ^ (8 * w - 1) then (bits : Int) else (bits : Int) - 2 ^ (8 * w)

/-- Equality of `Except` results is decidable when both components are, so
concrete runs of the embedded functions can be settled by `decide`. -/
instance {ε α : Type} [DecidableEq ε] [DecidableEq α] : DecidableEq (Except ε α) := fun x y =>
  match x, y with
  | .ok a, .ok b =>
    if h : a = b then .isTrue (by rw [h]) else .isFalse (fun hc => by cases hc; exact h rfl)
  | .error a, .error b =>
    if h : a = b then .isTrue (by rw [h]) else .isFalse (fun hc => by cases hc; exact h rfl)
  | .ok _, .error _ => .isFalse (fun hc => by cases hc)
  | .error _, .ok _ => .isFalse (fun hc => by cases hc)

/-- `BTreePageType` from internal/db/page.go. -/
inductive BTreePageType where
  | interiorIndex
  | interiorTable
  | leafIndex
  | leafTable
deriving Repr, DecidableEq

/-- The page header length the `switch` in `NewPage` selects: 11 bytes for
interior page types, 7 for leaf page types. -/
def headerLength : BTreePageType → Nat
  | .interiorIndex => 11
  | .interiorTable => 11
  | .leafIndex => 7
  | .leafTable => 7

/-- The `switch BTreePageType(typeFlag)` in `NewPage`: type byte 2, 5, 10
or 13 selects a page type; anything else falls to the error default. -/
def pageTypeOf (typeFlag : Nat) : Option BTreePageType :=
  if typeFlag = 2 then some .interiorIndex
  else if typeFlag = 5 then some .interiorTable
  else if typeFlag = 10 then some .leafIndex
  else if typeFlag = 13 then some .leafTable
  else none

/-- `DatabaseHeader` from internal/db/file.go (`pageSize` is a Go uint16,
`pageCount` a uint32). -/
structure DatabaseHeader where
  pageSize : Nat
  pageCount : Nat
deriving Repr, DecidableEq

/-- `Page` from internal/db/page.go. -/
structure Page where
  pageType : BTreePageType
  pageStart : Nat
  contentOffset : Nat
  cellCount : Nat
  cellAddresses : List Nat
  data : List Nat
deriving Repr, DecidableEq

/-- `databaseHeaderBytes` from internal/db/file.go. -/
def databaseHeaderBytes : Nat := 100

/-- `binary.BigEndian.Uint16` on two bytes. -/
def be16 (hi lo : Nat) : Nat :=
  ((hi &&& 0xff) <<< 8) ||| (lo &&& 0xff)

/-- `pageBounds` from internal/db/page.go: (start, size, contentOffset) for
a page number, where the Go function takes a possibly-nil header pointer. -/
def pageBounds (header : Option DatabaseHeader) (pageNumber : Nat) :
    Except Err (Nat × Nat × Nat) :=
  match header with
  | none => .error .nilHeader
  | some h =>
    if pageNumber = 0 then .error .invalidPageNumber
    else
      if pageNumber = 1 then
        if h.pageSize ≤ databaseHeaderBytes then .error (.pageSizeTooSmall h.pageSize)
        else .ok (0, h.pageSize, databaseHeaderBytes)
      else .ok ((pageNumber - 1) * h.pageSize, h.pageSize, 0)

/-- The cell pointer array `NewPage` builds: `cellCount` big-endian uint16
values read from `data` starting at `offset` (all reads are in bounds when
this is reached, because the pointer-array length check passed). -/
def cellAddrs (data : List Nat) (offset count : Nat) : List Nat :=
  (List.range count).map fun i => be16 (data.getD (offset + 2 * i) 0) (data.getD (offset + 2 * i + 1) 0)

/-- `NewPage` from internal/db/page.go, reading from `file` (the database
file bytes) instead of through an `os.File`.  `io.ReadFull` over an
`io.NewSectionReader` of length `size` yields exactly `size` bytes or fails
(a short read is an error); with `size = 0` it reads nothing and the
following `len(page.Data) == 0` check fails instead. -/
def NewPage (file : List Nat) (header : Option DatabaseHeader) (pageNumber : Nat) :
    Except Err Page :=
  match pageBounds header pageNumber with
  | .error e => .error e
  | .ok (start, size, contentOffset) =>
    if 0 < size ∧ file.length < start + size then .error (.ioRead pageNumber)
    else
      let data := (file.drop start).take size
      if data.length = 0 then .error (.noData pageNumber)
      else if data.length ≤ contentOffset then .error (.contentOffsetBeyondData pageNumber)
      else
        match pageTypeOf (data.getD contentOffset 0) with
        | none => .error (.unknownPageType pageNumber (data.getD contentOffset 0))
        | some pt =>
          if data.length < contentOffset + 1 + headerLength pt then
            .error (.truncatedHeader pageNumber)
          else
            let hdr := (data.drop (contentOffset + 1)).take (headerLength pt)
            let cellCount := be16 (hdr.getD 2 0) (hdr.getD 3 0)
            if data.length < contentOffset + 1 + headerLength pt + cellCount * 2 then
              .error (.truncatedPointers pageNumber)
            else
              .ok { pageType := pt, pageStart := start, contentOffset := contentOffset,
                    cellCount := cellCount,
                    cellAddresses := cellAddrs data (contentOffset + 1 + headerLength pt) cellCount,
                    data := data }

/-- `CellOffset` from internal/db/row.go (the Go `cellIndex` is a signed
int, so the negative check is kept by taking an `Int`). -/
def CellOffset (page : Page) (cellIndex : Int) : Except Err Nat :=
  if cellIndex < 0 then .error (.cellIndexOutOfRange cellIndex)
  else if (page.cellCount : Int) ≤ cellIndex then .error (.cellIndexOutOfRange cellIndex)
  else if (page.cellAddresses.length : Int) ≤ cellIndex then .error (.missingCellAddress cellIndex)
  else .ok (page.cellAddresses.getD cellIndex.toNat 0)

/-- `CellData` from internal/db/row.go: the page data from the cell's
offset to the end of the page. -/
def CellData (page : Page) (cellIndex : Int) : Except Err (List Nat) :=
  match CellOffset page cellIndex with
  | .error e => .error e
  | .ok offset =>
    if page.data.length ≤ offset then .error (.cellOffsetExceedsPage offset)
    else .ok (page.data.drop offset)

/-- The serial-type loop of `ReadRow`: varints are read from the
length-limited header region until the reader reports end of input (a
varint cut off by the limit is dropped, exactly as the Go loop breaks on
`io.EOF` and discards the partial value).  Each successful `ReadVarint`
consumes at least one byte, so fuel `s.length + 1` never runs out before
the end-of-input break that the Go loop terminates on. -/
def readSerialTypesAux : Nat → List Nat → List Nat
  | 0, _ => []
  | fuel + 1, s =>
    if (ReadVarint s).err then []
    else (ReadVarint s).value :: readSerialTypesAux fuel (ReadVarint s).rest

/-- The serial types decoded from the limited header region `s`. -/
def readSerialTypes (s : List Nat) : List Nat :=
  readSerialTypesAux (s.length + 1) s

/-- The column-value loop of `ReadRow`: for each serial type, compute the
payload length, read exactly that many bytes from the remaining cell stream
(`io.ReadFull` fails when fewer are available; a zero length reads
nothing), and decode.  Returns the columns and the unread remainder. -/
def decodeColumns : List Nat → List Nat → Except Err (List Column × List Nat)
  | [], s => .ok ([], s)
  | st :: rest, s =>
    match columnRawValueLength st with
    | .error e => .error e
    | .ok len =>
      if 0 < len ∧ s.length < len then .error (.readPayload st)
      else
        match decodeColumnValue st (s.take len) with
        | .error e => .error e
        | .ok v =>
          match decodeColumns rest (s.drop len) with
          | .error e => .error e
          | .ok (cols, s2) => .ok (⟨st, v⟩ :: cols, s2)

/-- `ReadRow` from internal/db/row.go.  The cell bytes are read through a
`bufio` reader; the three leading varints are record size, row id and
header size; the remaining header byte budget is
`int64(headerSize) - int64(headerBytes)` where `headerBytes` is the encoded
length of the header-size varint alone (negative is an error; a varint
value never exceeds 2 ^ 63 - 1, so the int64 casts are exact); the serial
types come from a reader limited to exactly that many bytes
(`io.LimitReader`), and the payloads from the main stream after it. -/
def ReadRow (page : Page) (cellIndex : Int) : Except Err Row :=
  match CellData page cellIndex with
  | .error e => .error e
  | .ok cellData =>
    let r1 := ReadVarint cellData
    if r1.err then .error (.readRecordSize cellIndex)
    else
      let r2 := ReadVarint r1.rest
      if r2.err then .error (.readRowID cellIndex)
      else
        let r3 := ReadVarint r2.rest
        if r3.err then .error (.readHeaderSize cellIndex)
        else
          if r3.value < r3.read then .error (.negativeHeaderSize cellIndex)
          else
            let remaining := r3.value - r3.read
            match decodeColumns (readSerialTypes (r3.rest.take remaining)) (r3.rest.drop remaining) with
            | .error e => .error e
            | .ok (cols, _) =>
              .ok { recordSize := r1.value, rowID := r2.value,
                    recordHeaderSize := r3.value, columns := cols }

/-- The loop of `ReadAllRows`: rows for cell indices `i, i + 1, ...` with
`fuel` cells left, failing on the first `ReadRow` error. -/
def readRowsFrom (page : Page) : Nat → Nat → Except Err (List Row)
  | _, 0 => .ok []
  | i, fuel + 1 =>
    match ReadRow page (i : Int) with
    | .error e => .error e
    | .ok row =>
      match readRowsFrom page (i + 1) fuel with
      | .error e => .error e
      | .ok rows => .ok (row :: rows)

/-- `ReadAllRows` from internal/db/row.go: cells `0 .. cellCount - 1` in
cell-pointer-array order. -/
def ReadAllRows (page : Page) : Except Err (List Row) :=
  readRowsFrom page 0 page.cellCount

/-- A one-cell leaf-table page holding a concrete record (five columns:
three one-byte texts, the integer 2, one more text), used to witness the
header-budget behaviour of `ReadRow` at a concrete input. -/
def budgetPage : Page :=
  ⟨.leafTable, 0, 0, 1, [0], [11, 1, 6, 15, 15, 15, 1, 15, 116, 116, 116, 2, 99]⟩

/-- `SqliteSchemaCol` from the db package: the fixed column index of each
well-known sqlite_schema column; the Go function panics on any other name,
modelled as `none`. -/
def SqliteSchemaCol (name : String) : Option Nat :=
  if name = "type" then some 0
  else if name = "name" then some 1
  else if name = "tbl_name" then some 2
  else if name = "rootpage" then some 3
  else if name = "sql" then some 4
  else none

/-- The row scan of `MetadataLookup[uint32]`: find the row whose `tbl_name`
column (index 2) equals `tableName`, then type-assert its `colIdx` column
to Go `uint32`.  Go indexes `row.Columns[metadataColIdx]` without a bounds
check once the name matches (a panic if out of range, modelled as an
error), and the `DecodedValue.(uint32)` assertion fails unless the dynamic
type is exactly `uint32`. -/
def metadataScanU32 (tableName : List Nat) (colIdx : Nat) : List Row → Except Err Nat
  | [] => .error .tableNotFound
  | row :: rest =>
    if row.columns.length ≤ 2 then .error .schemaColumnMissing
    else
      match (row.columns.getD 2 ⟨0, .nil⟩).decodedValue with
      | .str name =>
        if name = tableName then
          if row.columns.length ≤ colIdx then .error .indexPanic
          else
            match (row.columns.getD colIdx ⟨0, .nil⟩).decodedValue with
            | .uint32 v => .ok v
            | _ => .error .metadataTypeMismatch
        else metadataScanU32 tableName colIdx rest
      | _ => .error .tblNameNotText

/-- `MetadataLookup[T]` from the db package at `T = uint32` (the
instantiation `RowCount` uses for the `rootpage` column). -/
def MetadataLookupUint32 (schemaPage : Page) (tableName : List Nat) (col : String) :
    Except Err Nat :=
  match ReadAllRows schemaPage with
  | .error e => .error e
  | .ok rows =>
    match SqliteSchemaCol col with
    | none => .error .unknownSchemaColumn
    | some colIdx => metadataScanU32 tableName colIdx rows

/-- `NewDatabaseHeader` from internal/db/file.go: reads the 100-byte
database header (an error unless 100 bytes are available) and takes the
big-endian page size from bytes 16..17.  `pageCount` is never assigned by
the Go code and stays zero. -/
def NewDatabaseHeader (file : List Nat) : Except Err DatabaseHeader :=
  if file.length < 100 then .error .headerRead
  else .ok ⟨be16 (file.getD 16 0) (file.getD 17 0), 0⟩

/-- `LoadPage` from internal/db/file.go, with the file system modelled as a
partial map from path to file bytes (`none` = `os.Open` fails). -/
def LoadPage (fs : String → Option (List Nat)) (path : String) (pageNum : Nat) :
    Except Err (DatabaseHeader × Page) :=
  if pageNum = 0 then .error .pageNumbersStartAtOne
  else
    match fs path with
    | none => .error .openFile
    | some file =>
      match NewDatabaseHeader file with
      | .error e => .error e
      | .ok header =>
        match NewPage file (some header) pageNum with
        | .error e => .error e
        | .ok page => .ok (header, page)

/-- `RowCount` from internal/engine/query.go: load page 1, look the table's
root page up in the schema, load that page, return its cell count. -/
def RowCount (fs : String → Option (List Nat)) (path : String) (tableName : List Nat) :
    Except Err Nat :=
  match LoadPage fs path 1 with
  | .error e => .error e
  | .ok (_, schemaPage) =>
    match MetadataLookupUint32 schemaPage tableName "rootpage" with
    | .error e => .error e
    | .ok rootPageNum =>
      match LoadPage fs path rootPageNum with
      | .error e => .error e
      | .ok (_, rootPage) => .ok rootPage.cellCount

/-- A well-formed 256-byte sample database with page size 128.  Page 1 is a
leaf-table schema page with one row: type "t", name "t", tbl_name "t",
rootpage 2, sql "c".  Page 2 is a leaf-table page whose cell count is 4. -/
def sampleFile : List Nat :=
  (List.replicate 16 0 ++ [0, 128] ++ List.replicate 82 0)
    ++ [13, 0, 0, 0, 1, 0, 110, 0, 0, 110,
        11, 1, 6, 15, 15, 15, 1, 15, 116, 116, 116, 2, 99, 0, 0, 0, 0, 0]
    ++ ([13, 0, 0, 0, 4] ++ List.replicate 123 0)

/-- The sample file system: one database at path "sample.db". -/
def sampleFs : String → Option (List Nat) := fun p =>
  if p = "sample.db" then some sampleFile else none

theorem readVarintAux_spec (fuel : Nat) : ∀ acc read s,
    read ≤ (readVarintAux fuel acc read s).read ∧
    (readVarintAux fuel acc read s).read ≤ read + fuel ∧
    (0 < fuel → read < (readVarintAux fuel acc read s).read) ∧
    (readVarintAux fuel acc read s).rest
      = s.drop ((readVarintAux fuel acc read s).read - read) ∧
    ((readVarintAux fuel acc read s).err = true →
      (readVarintAux fuel acc read s).read = read + s.length + 1 ∧
      (readVarintAux fuel acc read s).rest = [] ∧
      s.length < fuel ∧
      (readVarintAux fuel acc read s).value = (s.foldl varintStep acc) <<< 7) := by
  induction fuel with
  | zero =>
    intro acc read s
    simp [readVarintAux]
  | succ fuel ih =>
    intro acc read s
    cases s with
    | nil =>
      simp [readVarintAux, varintStep]
    | cons b rest =>
      by_cases hb : b &&& 0x80 = 0
      · simp [readVarintAux, hb]
      · have h := ih ((acc <<< 7) ||| (b &&& 0x7f)) (read + 1) rest
        simp only [readVarintAux, if_neg hb]
        refine ⟨by omega, by omega, fun _ => by omega, ?_, ?_⟩
        · have hr := h.1
          have hrest := h.2.2.2.1
          rw [hrest]
          have : (readVarintAux fuel ((acc <<< 7) ||| (b &&& 0x7f)) (read + 1) rest).read - read
              = ((readVarintAux fuel ((acc <<< 7) ||| (b &&& 0x7f)) (read + 1) rest).read - (read + 1)) + 1 := by
            omega
          rw [this, List.drop_succ_cons]
        · intro he
          obtain ⟨h5a, h5b, h5c, h5d⟩ := h.2.2.2.2 he
          refine ⟨by simp only [List.length_cons]; omega, h5b, by simp only [List.length_cons]; omega, ?_⟩
          rw [h5d]
          simp [varintStep]

theorem readVarint_rest (s : List Nat) :
    (ReadVarint s).rest = s.drop (ReadVarint s).read := by
  have h := readVarintAux_spec 9 0 0 s
  simpa [ReadVarint] using h.2.2.2.1

theorem readVarint_pos (s : List Nat) : 1 ≤ (ReadVarint s).read := by
  have h := readVarintAux_spec 9 0 0 s
  have := h.2.2.1 (by norm_num)
  simpa [ReadVarint] using this

/-- If the last read did not fail, the remainder is strictly shorter. -/
theorem readVarint_rest_lt (s : List Nat) (h : (ReadVarint s).err = false) :
    (ReadVarint s).rest.length < s.length + 1 := by
  rw [readVarint_rest]
  have := readVarint_pos s
  have hlen := List.length_drop (ReadVarint s).read s
  omega

/-- C3: `readVarint` treats all nine bytes uniformly — on every iteration,
including the ninth, it shifts the accumulator left by 7 and ORs in the low
7 bits of the byte read, so the ninth byte never contributes 8 data bits.
For any input whose first 8 bytes all have the continuation bit set, the
value returned is the concatenation of the low-7-bit groups of all nine
bytes (63 data bits) and bytesConsumed is 9. -/
theorem readVarint_nine_uniform
    (b0 b1 b2 b3 b4 b5 b6 b7 b8 : Nat) (rest : List Nat)
    (h0 : b0 &&& 0x80 ≠ 0) (h1 : b1 &&& 0x80 ≠ 0) (h2 : b2 &&& 0x80 ≠ 0)
    (h3 : b3 &&& 0x80 ≠ 0) (h4 : b4 &&& 0x80 ≠ 0) (h5 : b5 &&& 0x80 ≠ 0)
    (h6 : b6 &&& 0x80 ≠ 0) (h7 : b7 &&& 0x80 ≠ 0) :
    ReadVarint (b0 :: b1 :: b2 :: b3 :: b4 :: b5 :: b6 :: b7 :: b8 :: rest)
      = ⟨[b0, b1, b2, b3, b4, b5, b6, b7, b8].foldl varintStep 0, 9, rest, false⟩ := by
  by_cases h8 : b8 &&& 0x80 = 0 <;>
    simp [ReadVarint, readVarintAux, varintStep, h0, h1, h2, h3, h4, h5, h6, h7, h8]

/-- Witness for C3 at the concrete input of nine 0xFF bytes. -/
theorem readVarint_nine_uniform_witness :
    ReadVarint [255, 255, 255, 255, 255, 255, 255, 255, 255]
      = ⟨[255, 255, 255, 255, 255, 255, 255, 255, 255].foldl varintStep 0, 9, [], false⟩ :=
  readVarint_nine_uniform 255 255 255 255 255 255 255 255 255 []
    (by decide) (by decide) (by decide) (by decide)
    (by decide) (by decide) (by decide) (by decide)

/-- C10: `readVarint` terminates after at most 9 iterations with
1 ≤ bytesConsumed ≤ 9.  When the byte source fails mid-sequence (it is then
exhausted and yields the byte 0, whose continuation bit is clear), the loop
exits within that same iteration: the error is returned to the caller, the
value holds the partial accumulation, and bytesConsumed counts the failed
read attempt.  The error is never swallowed by a later successful read. -/
theorem readVarint_safety (s : List Nat) :
    1 ≤ (ReadVarint s).read ∧ (ReadVarint s).read ≤ 9 ∧
    ((ReadVarint s).err = true →
      (ReadVarint s).read = s.length + 1 ∧
      (ReadVarint s).rest = [] ∧
      s.length ≤ 8 ∧
      (ReadVarint s).value = (s.foldl varintStep 0) <<< 7) := by
  simp only [ReadVarint]
  have h := readVarintAux_spec 9 0 0 s
  refine ⟨h.2.2.1 (by norm_num), by have := h.2.1; omega, fun he => ?_⟩
  obtain ⟨ha, hb, hc, hd⟩ := h.2.2.2.2 he
  exact ⟨by omega, hb, by omega, hd⟩

/-- Witness for C10 at the concrete input of a single continuation byte:
the source is exhausted mid-sequence, so the error is reported with
bytesConsumed 2 (one good byte plus the failed attempt). -/
theorem readVarint_safety_witness :
    1 ≤ (ReadVarint [0x80]).read ∧ (ReadVarint [0x80]).read ≤ 9 ∧
    ((ReadVarint [0x80]).read = [0x80].length + 1 ∧
      (ReadVarint [0x80]).rest = [] ∧
      [0x80].length ≤ 8 ∧
      (ReadVarint [0x80]).value = ([0x80].foldl varintStep 0) <<< 7) := by
  have h := readVarint_safety [0x80]
  exact ⟨h.1, h.2.1, h.2.2 (by decide)⟩

/-- C6: the serial-type → payload-length table of `columnRawValueLength`
(0, 8, 9 → 0; 1 → 1; 2 → 2; 3 → 3; 4 → 4; 5 → 6; 6, 7 → 8; 10 and 11 are
reserved and fail; even types ≥ 12 → (t - 12) / 2; odd types ≥ 12 →
(t - 13) / 2), and `decodeColumnValue` fails with a length-mismatch error
whenever the payload length differs from this expected length — it never
truncates or pads. -/
theorem columnRawValueLength_spec :
    columnRawValueLength 0 = .ok 0 ∧ columnRawValueLength 8 = .ok 0 ∧
    columnRawValueLength 9 = .ok 0 ∧ columnRawValueLength 1 = .ok 1 ∧
    columnRawValueLength 2 = .ok 2 ∧ columnRawValueLength 3 = .ok 3 ∧
    columnRawValueLength 4 = .ok 4 ∧ columnRawValueLength 5 = .ok 6 ∧
    columnRawValueLength 6 = .ok 8 ∧ columnRawValueLength 7 = .ok 8 ∧
    columnRawValueLength 10 = .error (.reservedSerialType 10) ∧
    columnRawValueLength 11 = .error (.reservedSerialType 11) ∧
    (∀ t, 12 ≤ t → t % 2 = 0 → columnRawValueLength t = .ok ((t - 12) / 2)) ∧
    (∀ t, 12 ≤ t → t % 2 = 1 → columnRawValueLength t = .ok ((t - 13) / 2)) ∧
    (∀ t raw expectedLen, columnRawValueLength t = .ok expectedLen →
      expectedLen ≠ raw.length →
      decodeColumnValue t raw = .error (.payloadLengthMismatch t expectedLen raw.length)) := by
  refine ⟨by decide, by decide, by decide, by decide, by decide, by decide, by decide,
    by decide, by decide, by decide, by decide, by decide, ?_, ?_, ?_⟩
  · intro t h12 hev
    unfold columnRawValueLength
    repeat rw [if_neg (by omega)]
    rw [if_pos h12, if_pos hev]
  · intro t h12 hodd
    unfold columnRawValueLength
    repeat rw [if_neg (by omega)]
    rw [if_pos h12]
    rw [if_neg (by omega)]
  · intro t raw expectedLen hL hne
    unfold decodeColumnValue
    rw [hL]
    dsimp only
    rw [if_pos hne]

/-- Witness for C6 at concrete inputs: a 3-byte blob type (even, 18), a
2-byte text type (odd, 17), and a length mismatch (serial type 1 given two
payload bytes) that is rejected. -/
theorem columnRawValueLength_spec_witness :
    columnRawValueLength 18 = .ok ((18 - 12) / 2) ∧
    columnRawValueLength 17 = .ok ((17 - 13) / 2) ∧
    decodeColumnValue 1 [7, 7] = .error (.payloadLengthMismatch 1 1 [7, 7].length) := by
  have h := columnRawValueLength_spec
  exact ⟨h.2.2.2.2.2.2.2.2.2.2.2.2.1 18 (by decide) (by decide),
    h.2.2.2.2.2.2.2.2.2.2.2.2.2.1 17 (by decide) (by decide),
    h.2.2.2.2.2.2.2.2.2.2.2.2.2.2 1 [7, 7] 1 (by decide) (by decide)⟩

/-- C1 (code bug): the spec says serial types 1..6 decode as the big-endian
two's-complement integer sign-extended to 64 bits, but `decodeSignedInteger`
computes `int64(uint64(value << shift) >> shift)` — the right shift is on
`uint64`, hence LOGICAL, so for widths below 8 bytes the value is
zero-extended instead of sign-extended.  At serial type 1 with payload
0xFF the code returns 255 where the spec prescribes -1. -/
theorem decodeSignedInteger_zero_extends_bug :
    decodeColumnValue 1 [0xff] = .ok (.int64 255) ∧
    specDecodeSignedInteger [0xff] = -1 ∧
    decodeSignedInteger [0xff] ≠ specDecodeSignedInteger [0xff] ∧
    decodeColumnValue 6 [0xff, 0xff, 0xff, 0xff, 0xff, 0xff, 0xff, 0xff]
      = .ok (.int64 (-1)) := by
  refine ⟨by decide, by decide, by decide, by decide⟩

theorem pageBounds_size (h : DatabaseHeader) (n start size co : Nat)
    (hb : pageBounds (some h) n = .ok (start, size, co)) : size = h.pageSize := by
  simp only [pageBounds] at hb
  by_cases h0 : n = 0
  · rw [if_pos h0] at hb; cases hb
  · rw [if_neg h0] at hb
    by_cases h1 : n = 1
    · rw [if_pos h1] at hb
      by_cases hs : h.pageSize ≤ databaseHeaderBytes
      · rw [if_pos hs] at hb; cases hb
      · rw [if_neg hs] at hb; cases hb; rfl
    · rw [if_neg h1] at hb; cases hb; rfl

/-- C5: `pageBounds` maps page 1 to file offset 0, size `pageSize`, content
offset 100 (failing instead when `pageSize ≤ 100`), and maps every page
number n ≥ 2 to offset (n - 1) * pageSize, size `pageSize`, content
offset 0 with no size check at all. -/
theorem pageBounds_spec (h : DatabaseHeader) (n : Nat) :
    (100 < h.pageSize → pageBounds (some h) 1 = .ok (0, h.pageSize, 100)) ∧
    (2 ≤ n → pageBounds (some h) n = .ok ((n - 1) * h.pageSize, h.pageSize, 0)) ∧
    (h.pageSize ≤ 100 → pageBounds (some h) 1 = .error (.pageSizeTooSmall h.pageSize)) := by
  refine ⟨fun hgt => ?_, fun hn => ?_, fun hle => ?_⟩
  · have hx : ¬ h.pageSize ≤ 100 := by omega
    simp [pageBounds, databaseHeaderBytes, hx]
  · simp only [pageBounds]
    rw [if_neg (by omega), if_neg (by omega)]
  · simp [pageBounds, databaseHeaderBytes, hle]

/-- Witness for C5 at concrete inputs: page size 512 for pages 1 and 3, and
page size 64 (≤ 100) for the page-1 failure. -/
theorem pageBounds_spec_witness :
    pageBounds (some ⟨512, 0⟩) 1 = .ok (0, 512, 100) ∧
    pageBounds (some ⟨512, 0⟩) 3 = .ok ((3 - 1) * 512, 512, 0) ∧
    pageBounds (some ⟨64, 0⟩) 1 = .error (.pageSizeTooSmall 64) :=
  ⟨(pageBounds_spec ⟨512, 0⟩ 3).1 (by decide),
    (pageBounds_spec ⟨512, 0⟩ 3).2.1 (by decide),
    (pageBounds_spec ⟨64, 0⟩ 1).2.2 (by decide)⟩

/-- C8: `readPage` (the `NewPage` method) with page number 0 fails with the
invalid-page-number error and yields no page, and whenever the type byte it
reads (the byte at `contentOffset`) is none of 2, 5, 10, 13 — in particular
a type byte of 0 — it fails with the unknown-page-type error. -/
theorem newPage_boundary_errors :
    (∀ (file : List Nat) (h : DatabaseHeader),
      NewPage file (some h) 0 = .error .invalidPageNumber) ∧
    (∀ (file : List Nat) (h : DatabaseHeader) (n start size co : Nat),
      pageBounds (some h) n = .ok (start, size, co) →
      ¬(0 < size ∧ file.length < start + size) →
      ((file.drop start).take size).length ≠ 0 →
      ¬((file.drop start).take size).length ≤ co →
      (∀ t, t = ((file.drop start).take size).getD co 0 →
        t ≠ 2 → t ≠ 5 → t ≠ 10 → t ≠ 13 →
        NewPage file (some h) n = .error (.unknownPageType n t))) := by
  constructor
  · intro file h
    simp [NewPage, pageBounds]
  · intro file h n start size co hb hio hnd hco t ht h2 h5 h10 h13
    simp only [NewPage, hb]
    rw [if_neg hio, if_neg hnd, if_neg hco, ← ht]
    have hpt : pageTypeOf t = none := by
      simp [pageTypeOf, h2, h5, h10, h13]
    rw [hpt]

/-- Witness for C8: a 16-byte file with page size 8; page 2 starts with a
type byte of 0, so `NewPage` reports the unknown-page-type error. -/
theorem newPage_boundary_errors_witness :
    NewPage (List.replicate 16 0) (some ⟨8, 0⟩) 0 = .error .invalidPageNumber ∧
    NewPage (List.replicate 16 0) (some ⟨8, 0⟩) 2 = .error (.unknownPageType 2 0) := by
  have h := newPage_boundary_errors
  exact ⟨h.1 (List.replicate 16 0) ⟨8, 0⟩,
    h.2 (List.replicate 16 0) ⟨8, 0⟩ 2 8 8 0 (by decide) (by decide) (by decide) (by decide)
      0 (by decide) (by decide) (by decide) (by decide) (by decide)⟩

/-- C9: every page `readPage` returns satisfies the structural invariants:
the cell pointer list has exactly `cellCount` entries, the data buffer has
exactly `pageSize` bytes, and the B-tree header together with the whole cell
pointer array lies within the page data —
`contentOffset + 1 + headerLength + 2 * cellCount ≤ len(data)`. -/
theorem newPage_ok_invariants (file : List Nat) (h : DatabaseHeader) (n : Nat) (p : Page)
    (hp : NewPage file (some h) n = .ok p) :
    p.cellAddresses.length = p.cellCount ∧
    p.data.length = h.pageSize ∧
    p.contentOffset + 1 + headerLength p.pageType + 2 * p.cellCount ≤ p.data.length := by
  unfold NewPage at hp
  cases hb : pageBounds (some h) n with
  | error e => rw [hb] at hp; cases hp
  | ok triple =>
    obtain ⟨start, size, co⟩ := triple
    rw [hb] at hp
    have hsize := pageBounds_size h n start size co hb
    dsimp only at hp
    split at hp
    · cases hp
    · split at hp
      · cases hp
      · split at hp
        · cases hp
        · split at hp
          · cases hp
          · split at hp
            · cases hp
            · split at hp
              · cases hp
              · cases hp
                have hd := List.length_drop start file
                have ht := List.length_take size (file.drop start)
                have hlen : ((file.drop start).take size).length = size := by omega
                refine ⟨by simp [cellAddrs], by rw [hlen, hsize], ?_⟩
                dsimp only
                omega

/-- Witness for C9: an 8-byte page 2 (a leaf-table page with no cells) read
from a 16-byte file with page size 8. -/
theorem newPage_ok_invariants_witness :
    (⟨.leafTable, 8, 0, 0, [], [13, 0, 0, 0, 0, 0, 0, 0]⟩ : Page).cellAddresses.length
        = (⟨.leafTable, 8, 0, 0, [], [13, 0, 0, 0, 0, 0, 0, 0]⟩ : Page).cellCount ∧
    (⟨.leafTable, 8, 0, 0, [], [13, 0, 0, 0, 0, 0, 0, 0]⟩ : Page).data.length
        = (⟨8, 0⟩ : DatabaseHeader).pageSize ∧
    (⟨.leafTable, 8, 0, 0, [], [13, 0, 0, 0, 0, 0, 0, 0]⟩ : Page).contentOffset + 1
        + headerLength (⟨.leafTable, 8, 0, 0, [], [13, 0, 0, 0, 0, 0, 0, 0]⟩ : Page).pageType
        + 2 * (⟨.leafTable, 8, 0, 0, [], [13, 0, 0, 0, 0, 0, 0, 0]⟩ : Page).cellCount
        ≤ (⟨.leafTable, 8, 0, 0, [], [13, 0, 0, 0, 0, 0, 0, 0]⟩ : Page).data.length :=
  newPage_ok_invariants (List.replicate 8 0 ++ [13, 0, 0, 0, 0, 0, 0, 0]) ⟨8, 0⟩ 2
    ⟨.leafTable, 8, 0, 0, [], [13, 0, 0, 0, 0, 0, 0, 0]⟩ (by decide)

theorem decodeColumns_serialTypes (sts : List Nat) : ∀ s cols s2,
    decodeColumns sts s = .ok (cols, s2) → cols.map Column.serialType = sts := by
  induction sts with
  | nil =>
    intro s cols s2 hd
    unfold decodeColumns at hd
    cases hd
    rfl
  | cons st rest ih =>
    intro s cols s2 hd
    unfold decodeColumns at hd
    cases hL : columnRawValueLength st with
    | error e => rw [hL] at hd; cases hd
    | ok len =>
      rw [hL] at hd
      dsimp only at hd
      split at hd
      · cases hd
      · split at hd
        · cases hd
        · split at hd
          · cases hd
          · cases hd
            rename_i hcols
            simp only [List.map_cons]
            rw [ih _ _ _ hcols]

/-- C2: in `readRow` the byte budget for the serial-type varint list is
`headerSize` minus the encoded byte length of the header-size varint alone
(the record-size and row-id varint byte counts are not subtracted), the
function fails when that difference is negative, and otherwise the serial
types are read from a reader limited to exactly that many bytes right after
the three leading varints. -/
theorem readRow_header_budget (page : Page) (i : Int)
    (c s1 s2 s3 : List Nat) (rs k1 rid k2 hs k3 : Nat)
    (hc : CellData page i = .ok c)
    (h1 : ReadVarint c = ⟨rs, k1, s1, false⟩)
    (h2 : ReadVarint s1 = ⟨rid, k2, s2, false⟩)
    (h3 : ReadVarint s2 = ⟨hs, k3, s3, false⟩) :
    (hs < k3 → ReadRow page i = .error (.negativeHeaderSize i)) ∧
    (∀ row, ReadRow page i = .ok row →
      row.columns.map Column.serialType = readSerialTypes (s3.take (hs - k3))) := by
  unfold ReadRow
  rw [hc]
  simp only [h1, h2, h3, Bool.false_eq_true, if_false]
  constructor
  · intro hlt
    rw [if_pos hlt]
  · intro row hrow
    by_cases hlt : hs < k3
    · rw [if_pos hlt] at hrow
      cases hrow
    · rw [if_neg hlt] at hrow
      cases hdc : decodeColumns (readSerialTypes (s3.take (hs - k3))) (s3.drop (hs - k3)) with
      | error e => rw [hdc] at hrow; cases hrow
      | ok pair =>
        obtain ⟨cols, s4⟩ := pair
        rw [hdc] at hrow
        cases hrow
        exact decodeColumns_serialTypes _ _ _ _ hdc

/-- Witness for C2 at `budgetPage`: header size 6 encoded in 1 byte leaves
a 5-byte serial-type budget, and the decoded row's serial types are exactly
the varints of those 5 bytes. -/
theorem readRow_header_budget_witness :
    ([⟨15, .str [116]⟩, ⟨15, .str [116]⟩, ⟨15, .str [116]⟩, ⟨1, .int64 2⟩,
        ⟨15, .str [99]⟩] : List Column).map Column.serialType
      = readSerialTypes ([15, 15, 15, 1, 15, 116, 116, 116, 2, 99].take (6 - 1)) :=
  (readRow_header_budget budgetPage 0
      [11, 1, 6, 15, 15, 15, 1, 15, 116, 116, 116, 2, 99]
      [1, 6, 15, 15, 15, 1, 15, 116, 116, 116, 2, 99]
      [6, 15, 15, 15, 1, 15, 116, 116, 116, 2, 99]
      [15, 15, 15, 1, 15, 116, 116, 116, 2, 99]
      11 1 1 1 6 1
      (by decide) (by decide) (by decide) (by decide)).2
    ⟨11, 1, 6, [⟨15, .str [116]⟩, ⟨15, .str [116]⟩, ⟨15, .str [116]⟩, ⟨1, .int64 2⟩,
        ⟨15, .str [99]⟩]⟩
    (by decide)

theorem readRowsFrom_spec (page : Page) (fuel : Nat) : ∀ i,
    (∃ rows, readRowsFrom page i fuel = .ok rows ∧ rows.length = fuel ∧
      ∀ k, k < fuel → ∃ r, rows[k]? = some r ∧ ReadRow page ((i + k : Nat) : Int) = .ok r) ∨
    (∃ k e, k < fuel ∧ ReadRow page ((i + k : Nat) : Int) = .error e ∧
      (∀ j, j < k → ∃ r, ReadRow page ((i + j : Nat) : Int) = .ok r) ∧
      readRowsFrom page i fuel = .error e) := by
  induction fuel with
  | zero =>
    intro i
    left
    exact ⟨[], rfl, rfl, fun k hk => absurd hk (Nat.not_lt_zero k)⟩
  | succ fuel ih =>
    intro i
    cases hR : ReadRow page (i : Int) with
    | error e =>
      right
      refine ⟨0, e, Nat.succ_pos fuel, by simpa using hR,
        fun j hj => absurd hj (Nat.not_lt_zero j), ?_⟩
      unfold readRowsFrom
      rw [hR]
    | ok r =>
      cases ih (i + 1) with
      | inl hok =>
        obtain ⟨rows, hrows, hlen, hidx⟩ := hok
        left
        refine ⟨r :: rows, ?_, by simp [hlen], ?_⟩
        · unfold readRowsFrom
          rw [hR, hrows]
        · intro k hk
          cases k with
          | zero => exact ⟨r, by simp, by simpa using hR⟩
          | succ k2 =>
            obtain ⟨r2, hget, hread⟩ := hidx k2 (by omega)
            refine ⟨r2, by simpa using hget, ?_⟩
            have harith : i + 1 + k2 = i + (k2 + 1) := by omega
            rw [harith] at hread
            exact hread
      | inr hfail =>
        obtain ⟨k, e, hk, herr, hprev, hcomp⟩ := hfail
        right
        have harith : i + 1 + k = i + (k + 1) := by omega
        refine ⟨k + 1, e, by omega, by rw [← harith]; exact herr, ?_, ?_⟩
        · intro j hj
          cases j with
          | zero => exact ⟨r, by simpa using hR⟩
          | succ j2 =>
            obtain ⟨r2, hread⟩ := hprev j2 (by omega)
            have ha2 : i + 1 + j2 = i + (j2 + 1) := by omega
            rw [ha2] at hread
            exact ⟨r2, hread⟩
        · unfold readRowsFrom
          rw [hR, hcomp]

/-- C7: `readAllRows` decodes cells `0 .. cellCount - 1` in
cell-pointer-array order and either returns one decoded row per cell, or —
when some cell fails to decode — returns only the error of the first
failing cell and no rows at all (rows decoded before the failure are
discarded; no partial result is ever returned). -/
theorem readAllRows_spec (page : Page) :
    (∃ rows, ReadAllRows page = .ok rows ∧ rows.length = page.cellCount ∧
      ∀ i, i < page.cellCount → ∃ r, rows[i]? = some r ∧ ReadRow page (i : Int) = .ok r) ∨
    (∃ i e, i < page.cellCount ∧ ReadRow page (i : Int) = .error e ∧
      (∀ j, j < i → ∃ r, ReadRow page (j : Int) = .ok r) ∧
      ReadAllRows page = .error e) := by
  have h := readRowsFrom_spec page page.cellCount 0
  simp only [Nat.zero_add] at h
  exact h

set_option maxRecDepth 100000 in
/-- C4 (code bug): on the sample database, whose schema resolves table "t"
(byte 116) to root page 2 with the rootpage column decoded as the Go int64
value 2, and whose page 2 has cell count 4, `RowCount` does not return 4:
`MetadataLookup[uint32]` type-asserts `DecodedValue.(uint32)` while
`decodeColumnValue` only ever produces int64 for integer serial types, so
the assertion fails and `RowCount` always propagates a type-mismatch error
instead of the root page's cell count. -/
theorem rowCount_uint32_assertion_bug :
    RowCount sampleFs "sample.db" [116] = .error .metadataTypeMismatch ∧
    ((LoadPage sampleFs "sample.db" 1).toOption.bind fun hp =>
      (ReadRow hp.2 0).toOption.map fun r => r.columns.map Column.decodedValue)
      = some [.str [116], .str [116], .str [116], .int64 2, .str [99]] ∧
    ((LoadPage sampleFs "sample.db" 2).toOption.map fun hp => hp.2.cellCount) = some 4 := by
  refine ⟨by decide, by decide, by decide⟩
